import Mathlib

/-!
Verification of the Google-Scholar scraping pipeline (`cr_2.py`) against its
natural-language specification.  The Python source is shallowly embedded:
pure helpers become Lean functions, DOM lookups that throw on absence become
`Option`-valued lookups, the pandas multi-key sort becomes `insertionSort`
over the lexicographic key relation, and the page-traversal loop becomes a
recursion over a list of rendered pages.
-/

namespace CR2

/-- A collected record, mirroring the dict built in `collect_page_items`:
`{"page": page_idx, "rank": rank, "title": title, "citations": int(citations)}`. -/
structure Record where
  page : Nat
  rank : Nat
  title : String
  citations : Nat
deriving Repr, DecidableEq, Inhabited

/-! ### CitationParser — `parse_citations_text` -/

/-- Numeric value of a digit string, as Python `int` computes it on the
matched group of `re.search(r"(\d+)", text)`. -/
def digitsVal (ds : List Char) : Nat :=
  ds.foldl (fun n c => n * 10 + (c.toNat - 48)) 0

/-- The first contiguous run of decimal digits in a character list: what the
regex `(\d+)` matches first under `re.search`. -/
def firstDigitRun (cs : List Char) : List Char :=
  (cs.dropWhile (fun c => !c.isDigit)).takeWhile (fun c => c.isDigit)

/-- Embedding of `parse_citations_text`: `if not text: return 0`, then
`m = re.search(r"(\d+)", text)`, `return int(m.group(1)) if m else 0`. -/
def parse_citations_text (text : String) : Nat :=
  if text = "" then 0
  else
    match firstDigitRun text.data with
    | [] => 0
    | ds => digitsVal ds

/-! ### Aggregator — the pandas sort in `run_scrape`
`df.sort_values(["citations", "page", "rank"], ascending=[False, True, True])` -/

/-- The (total, transitive) order used by the sort: citations descending,
then page ascending, then rank ascending. -/
def recLE (a b : Record) : Prop :=
  b.citations < a.citations ∨
    (a.citations = b.citations ∧
      (a.page < b.page ∨ (a.page = b.page ∧ a.rank ≤ b.rank)))

instance : DecidableRel recLE := fun a b => by
  unfold recLE; infer_instance

instance : IsTotal Record recLE := by
  constructor; intro a b; unfold recLE; omega

instance : IsTrans Record recLE := by
  constructor; intro a b c; unfold recLE; omega

/-- Embedding of the aggregation sort: a comparison sort over the
three-key lexicographic order. -/
def sortRecords (l : List Record) : List Record :=
  List.insertionSort recLE l

/-! ### RecordLocator — DOM model and the lookups of `collect_page_items`

Selenium lookups that raise `NoSuchElementException` on absence are embedded
as `Option`-valued lookups (the absent case is the raising case, caught by
the surrounding `try/except`). -/

/-- Python substring containment, `needle in haystack`. -/
def substr (needle haystack : String) : Bool :=
  decide (needle.data <:+: haystack.data)

/-- Python `str.strip()`: drop whitespace from both ends. -/
def pyStrip (s : String) : String :=
  String.mk
    (((s.data.dropWhile Char.isWhitespace).reverse.dropWhile
        Char.isWhitespace).reverse)

/-- ASCII case folding of one character, as `str.lower()` acts on the
characters relevant here (the non-ASCII hint phrases are caseless). -/
def lowerChar (c : Char) : Char :=
  if 65 ≤ c.toNat ∧ c.toNat ≤ 90 then Char.ofNat (c.toNat + 32) else c

/-- Python `str.lower()` on the page source. -/
def pyLower (s : String) : String :=
  String.mk (s.data.map lowerChar)

/-- An anchor element inside a result block: its `href` attribute and its
visible text. -/
structure Link where
  href : String
  text : String
deriving Repr, DecidableEq

/-- The `h3.gs_rt` heading of a card: the text of a nested anchor when one
exists, and the heading element text itself. -/
structure Heading where
  anchorText : Option String
  ownText : String
deriving Repr, DecidableEq

/-- One `div.gs_ri` result card.  `flContainer` is the
`div.gs_fl.gs_flb` toolbar when present (its links in document order);
`resultBlock` is the enclosing `gs_r`/`gs_scl` ancestor's link subtree when
the XPath ancestor lookup succeeds. -/
structure Card where
  heading : Option Heading
  flContainer : Option (List Link)
  resultBlock : Option (List Link)
deriving Repr, DecidableEq

/-- Title extraction of `collect_page_items`: prefer the anchor text inside
`h3.gs_rt`, fall back to the heading text, and the empty string when the
heading is absent.  `.strip()` is `pyStrip`. -/
def titleOf (card : Card) : String :=
  match card.heading with
  | none => ""
  | some h =>
    match h.anchorText with
    | some t => pyStrip t
    | none => pyStrip h.ownText

/-- CSS lookup `a[href*='cites=']`: first link whose target URL contains the
citation marker. -/
def findCitesLink (links : List Link) : Option Link :=
  links.find? (fun l => substr "cites=" l.href)

/-- XPath lookup `.//a[contains(., '인용') or contains(., 'Cited by')]`:
first link whose visible text contains either phrase. -/
def findPhraseLink (links : List Link) : Option Link :=
  links.find? (fun l => substr "인용" l.text || substr "Cited by" l.text)

/-- Embedding of the citation-link search of `collect_page_items`, following
the Python control flow: toolbar container first (`cites=` link, then
phrase link), then the ancestor result block with the same two stages. -/
def findCiteLink (card : Card) : Option Link :=
  match card.flContainer with
  | some links =>
    match findCitesLink links with
    | some l => some l
    | none =>
      match findPhraseLink links with
      | some l => some l
      | none =>
        match card.resultBlock with
        | some blinks =>
          match findCitesLink blinks with
          | some l => some l
          | none => findPhraseLink blinks
        | none => none
  | none =>
    match card.resultBlock with
    | some blinks =>
      match findCitesLink blinks with
      | some l => some l
      | none => findPhraseLink blinks
    | none => none

/-- The spec's ordered fallback chain, written as a chain of attempts that
returns on first success (§4.2 of the spec). -/
def locateCitationLinkSpec (card : Card) : Option Link :=
  ((card.flContainer.bind fun ls =>
      (findCitesLink ls).orElse fun _ => findPhraseLink ls)).orElse fun _ =>
    card.resultBlock.bind fun ls =>
      (findCitesLink ls).orElse fun _ => findPhraseLink ls

/-- Citation count of a card: `parse_citations_text(cite_link.text.strip())`
when a link was found, else the default 0. -/
def citationsOf (card : Card) : Nat :=
  match findCiteLink card with
  | some l => parse_citations_text (pyStrip l.text)
  | none => 0

/-! ### PageExtractor — `collect_page_items` -/

/-- The card loop of `collect_page_items`, carrying the per-page `rank`
counter: a card with an empty extracted title is skipped and does not
advance the counter. -/
def collectAux (pageIdx : Nat) : List Card → Nat → List Record
  | [], _ => []
  | c :: cs, rank =>
    let t := titleOf c
    if t ≠ "" then
      ⟨pageIdx, rank + 1, t, citationsOf c⟩ :: collectAux pageIdx cs (rank + 1)
    else
      collectAux pageIdx cs rank

/-- Embedding of `collect_page_items`: titles plus citation counts for the
cards of one page, ranks starting at 1. -/
def collect_page_items (cards : List Card) (pageIdx : Nat) : List Record :=
  collectAux pageIdx cards 0

/-! ### ChallengeGate and the traversal — `wait_if_captcha`, `run_scrape` -/

/-- The fixed challenge-signature phrases of `wait_if_captcha`. -/
def captchaHints : List String :=
  ["captcha", "로봇이", "자동화", "보안", "verify you are a human",
   "i\x27m not a robot", "문자를 입력"]

/-- Embedding of the detection test of `wait_if_captcha`:
`any(h in driver.page_source.lower() for h in hints)`. -/
def wait_if_captcha (pageSource : String) : Bool :=
  captchaHints.any (fun h => substr h (pyLower pageSource))

/-- What one navigation renders: the full page source inspected by the
challenge gate, and the result cards found afterwards. -/
structure PageRender where
  source : String
  cards : List Card
deriving Repr

/-- The page loop of `run_scrape`: each page is loaded, the challenge gate
runs before extraction (`wait_if_captcha` inside `open_with_query` /
`go_to_page`), and on detection the run is suspended (`st.stop()`), losing
the local accumulator.  Returns the accumulated records and the 1-based
index of the suspending page, when one suspended. -/
def collectPages : List PageRender → Nat → List Record × Option Nat
  | [], _ => ([], none)
  | pr :: rest, idx =>
    if wait_if_captcha pr.source then ([], some idx)
    else
      (collect_page_items pr.cards idx ++ (collectPages rest (idx + 1)).1,
        (collectPages rest (idx + 1)).2)

/-- Outcome of one run: either suspended at a page (control handed back to
the human, no records returned) or a final sorted result set. -/
inductive RunResult where
  | suspended (page : Nat)
  | ok (df : List Record)
deriving Repr, DecidableEq

/-- Embedding of the record pipeline of `run_scrape`: traverse the pages,
then `if df.empty: return df` else the three-key sort. -/
def run_scrape (pages : List PageRender) : RunResult :=
  match (collectPages pages 1).2 with
  | some k => .suspended k
  | none =>
    if (collectPages pages 1).1 = [] then .ok []
    else .ok (sortRecords (collectPages pages 1).1)

/-! ### TableExporter — `df_to_excel_bytes` and the download call -/

/-- The characters replaced by the sanitizer `re.sub(r"[\\/:*?\"<>|]", "_", query)`. -/
def unsafeChars : List Char :=
  ['\\', '/', ':', '*', '?', '\x22', '<', '>', '|']

/-- Embedding of the sanitization: each filesystem-unsafe character of the
query becomes an underscore. -/
def sanitize (q : String) : String :=
  String.mk (q.data.map fun c => if c ∈ unsafeChars then '_' else c)

/-- The file name built by `df_to_excel_bytes`:
`f"scholar_results_{safe_query}_{ts}.xlsx"`.  The timestamp is a parameter
(the source takes it from the wall clock). -/
def mk_file_name (q ts : String) : String :=
  "scholar_results_" ++ sanitize q ++ "_" ++ ts ++ ".xlsx"

/-- The naming convention as the claim words it:
`results_<sanitized-query>_<timestamp>` with the format extension. -/
def claimedFileName (q ts : String) : String :=
  "results_" ++ sanitize q ++ "_" ++ ts ++ ".xlsx"

/-- Embedding of `df_to_excel_bytes`: the spreadsheet encoding itself is the
external `TableExporter` collaborator, abstracted as `encode`; the function
returns the pair `(file_name, bytes)` despite the source's `-> bytes`
annotation. -/
def df_to_excel_bytes (encode : List Record → List Nat)
    (df : List Record) (q ts : String) : String × List Nat :=
  (mk_file_name q ts, encode df)

/-- The arguments the UI hands to `st.download_button`. -/
structure DownloadArgs where
  file_name : String
  data : List Nat
  mime : String
deriving Repr, DecidableEq

/-- Embedding of the download step of the UI:
`fname, xbytes = df_to_excel_bytes(df_sorted, query)` then
`st.download_button(..., data=xbytes, file_name=fname, mime=...)`. -/
def ui_download (encode : List Record → List Nat)
    (df : List Record) (q ts : String) : DownloadArgs :=
  let fx := df_to_excel_bytes encode df q ts
  ⟨fx.1, fx.2,
    "application/vnd.openxmlformats-officedocument.spreadsheetml.sheet"⟩

/-- The cards of a page that yield a usable (non-empty) title: exactly the
cards for which `collect_page_items` emits a record. -/
def keptCards (cards : List Card) : List Card :=
  cards.filter fun c => decide (titleOf c ≠ "")

/-! ### Session lifecycle — the `try/finally` of `run_scrape`

The observable effects of the run are traced as events, so that the
`finally: try: driver.quit() except Exception: pass` block of `run_scrape`
can be stated as: one quit call on every exit path, its failures swallowed. -/

/-- Observable session events of one run. -/
inductive Event where
  | quitCall
  | pageLoad (idx : Nat)
deriving Repr, DecidableEq

/-- The `driver.quit()` call: one `quitCall` event, possibly raising. -/
def quitOp (quitFails : Bool) : Except Unit Unit × List Event :=
  (if quitFails then .error () else .ok (), [.quitCall])

/-- The inner `try: ... except Exception: pass` around the quit call:
the events happen, any exception is absorbed. -/
def swallowErrors (x : Except Unit Unit × List Event) :
    Except Unit Unit × List Event :=
  (.ok (), x.2)

/-- Python `try/finally`: the finalizer's events always follow the body's;
a finalizer that raises replaces the body's outcome, one that returns
normally leaves it unchanged. -/
def tryFinallyRun {α : Type} (body : Except Unit α × List Event)
    (fin : Except Unit Unit × List Event) : Except Unit α × List Event :=
  match fin.1 with
  | .ok _ => (body.1, body.2 ++ fin.2)
  | .error e => (.error e, body.2 ++ fin.2)

/-- The resource shape of `run_scrape`: an arbitrary body (normal
completion or exception) guarded by the `finally` block that quits the
driver and swallows quit failures. -/
def run_scrape_session {α : Type} (body : Except Unit α × List Event)
    (quitFails : Bool) : Except Unit α × List Event :=
  tryFinallyRun body (swallowErrors (quitOp quitFails))

end CR2

namespace CR2

/-! ## Theorems -/

theorem sortRecords_pairwise (l : List Record) :
    (sortRecords l).Pairwise recLE :=
  List.sorted_insertionSort recLE l

/-- C2: the citation parser returns the integer value of the first
contiguous run of decimal digits anywhere in the string, 0 on empty input
or when no digit occurs, never negative (the return type is `Nat`), and it
agrees with the five concrete examples of the spec. -/
theorem C2_citation_parsing :
    parse_citations_text "" = 0 ∧
    parse_citations_text "no digits" = 0 ∧
    parse_citations_text "13회 인용" = 13 ∧
    parse_citations_text "Cited by 1234" = 1234 ∧
    parse_citations_text "a1b2" = 1 ∧
    (∀ s : String, (∀ c ∈ s.data, ¬ c.isDigit) → parse_citations_text s = 0) ∧
    (∀ (s : String) (pre ds rest : List Char),
      s.data = pre ++ ds ++ rest →
      (∀ c ∈ pre, ¬ c.isDigit) →
      ds ≠ [] →
      (∀ c ∈ ds, c.isDigit) →
      (∀ c, rest.head? = some c → ¬ c.isDigit) →
      parse_citations_text s = digitsVal ds) := by
  refine ⟨by decide, by decide, by decide, by decide, by decide, ?_, ?_⟩
  · intro s h
    unfold parse_citations_text
    by_cases hs : s = ""
    · simp [hs]
    · rw [if_neg hs]
      have hdrop : s.data.dropWhile (fun c => !c.isDigit) = [] := by
        rw [List.dropWhile_eq_nil_iff]
        intro x hx
        simp [h x hx]
      unfold firstDigitRun
      rw [hdrop]
      rfl
  · intro s pre ds rest hdata hpre hne hds hrest
    have hs : s ≠ "" := by
      intro h
      rw [h] at hdata
      have : pre ++ ds ++ rest = ([] : List Char) := hdata.symm
      rcases List.append_eq_nil.mp this with ⟨h1, -⟩
      exact hne (List.append_eq_nil.mp h1).2
    obtain ⟨d, ds', rfl⟩ : ∃ d ds', ds = d :: ds' := by
      cases ds with
      | nil => exact absurd rfl hne
      | cons d ds' => exact ⟨d, ds', rfl⟩
    have hrun : firstDigitRun s.data = d :: ds' := by
      unfold firstDigitRun
      rw [hdata, List.append_assoc, List.dropWhile_append]
      have hpre' : pre.dropWhile (fun c => !c.isDigit) = [] := by
        rw [List.dropWhile_eq_nil_iff]
        intro x hx
        simp [hpre x hx]
      rw [hpre']
      simp only [List.isEmpty_nil, if_true]
      have hd : d.isDigit = true := hds d (List.mem_cons_self d ds')
      rw [List.cons_append, List.dropWhile_cons]
      simp only [hd, Bool.not_true, Bool.false_eq_true, if_false]
      rw [List.takeWhile_cons]
      simp only [hd, if_true]
      have hds' : ds'.takeWhile (fun c => c.isDigit) = ds' :=
        List.takeWhile_eq_self_iff.mpr fun c hc =>
          hds c (List.mem_cons_of_mem d hc)
      rw [List.takeWhile_append]
      rw [hds']
      simp only [le_refl, if_pos rfl, if_true]
      have : rest.takeWhile (fun c => c.isDigit) = [] := by
        cases rest with
        | nil => rfl
        | cons r rs =>
          rw [List.takeWhile_cons]
          have := hrest r rfl
          simp [this]
      rw [this, List.append_nil]
    unfold parse_citations_text
    rw [if_neg hs, hrun]

/-- C1: the final result set is ordered by citations descending, then page
ascending, then rank ascending — whenever record A beats record B on the
first key where they differ, A precedes B — and on the spec's three-record
example the output order is (20,1,2), (20,2,1), (5,1,1). -/
theorem C1_result_order :
    (∀ (l : List Record) (i j : Nat)
        (hi : i < (sortRecords l).length) (hj : j < (sortRecords l).length),
      ((sortRecords l)[i].citations > (sortRecords l)[j].citations → i < j) ∧
      ((sortRecords l)[i].citations = (sortRecords l)[j].citations →
        (sortRecords l)[i].page < (sortRecords l)[j].page → i < j) ∧
      ((sortRecords l)[i].citations = (sortRecords l)[j].citations →
        (sortRecords l)[i].page = (sortRecords l)[j].page →
        (sortRecords l)[i].rank < (sortRecords l)[j].rank → i < j)) ∧
    sortRecords [⟨1, 1, "A", 5⟩, ⟨1, 2, "B", 20⟩, ⟨2, 1, "C", 20⟩] =
      [⟨1, 2, "B", 20⟩, ⟨2, 1, "C", 20⟩, ⟨1, 1, "A", 5⟩] := by
  constructor
  · intro l i j hi hj
    have hp := List.pairwise_iff_getElem.mp (sortRecords_pairwise l)
    refine ⟨?_, ?_, ?_⟩
    · intro h
      rcases Nat.lt_trichotomy i j with h1 | rfl | h3
      · exact h1
      · exact absurd h (lt_irrefl _)
      · have := hp j i hj hi h3
        unfold recLE at this
        omega
    · intro hcit h
      rcases Nat.lt_trichotomy i j with h1 | rfl | h3
      · exact h1
      · exact absurd h (lt_irrefl _)
      · have := hp j i hj hi h3
        unfold recLE at this
        omega
    · intro hcit hpage h
      rcases Nat.lt_trichotomy i j with h1 | rfl | h3
      · exact h1
      · exact absurd h (lt_irrefl _)
      · have := hp j i hj hi h3
        unfold recLE at this
        omega
  · decide

/-- Witness for C1 at the spec's example: the record at position 0 of the
sorted output has strictly more citations than the one at position 2, and
position 0 indeed precedes position 2. -/
theorem C1_result_order_witness :
    ((sortRecords [⟨1, 1, "A", 5⟩, ⟨1, 2, "B", 20⟩, ⟨2, 1, "C", 20⟩]).get
        ⟨0, by decide⟩).citations >
      ((sortRecords [⟨1, 1, "A", 5⟩, ⟨1, 2, "B", 20⟩, ⟨2, 1, "C", 20⟩]).get
        ⟨2, by decide⟩).citations ∧
    (0 : Nat) < 2 :=
  ⟨by decide,
    (C1_result_order.1 [⟨1, 1, "A", 5⟩, ⟨1, 2, "B", 20⟩, ⟨2, 1, "C", 20⟩]
        0 2 (by decide) (by decide)).1 (by decide)⟩

/-- C8: the aggregation sort is idempotent — re-sorting an already sorted
result set returns the identical sequence. -/
theorem C8_sort_idempotent (l : List Record) :
    sortRecords (sortRecords l) = sortRecords l :=
  List.Sorted.insertionSort_eq (List.sorted_insertionSort recLE l)

/-- C10: `df_to_excel_bytes` returns the pair (file name, xlsx bytes) —
not a bare byte string — and the UI unpacks it as such: the download's
`file_name` argument is the pair's first component and its `data` argument
the second. -/
theorem C10_export_returns_pair (encode : List Record → List Nat)
    (df : List Record) (q ts : String) :
    df_to_excel_bytes encode df q ts = (mk_file_name q ts, encode df) ∧
    (ui_download encode df q ts).file_name =
      (df_to_excel_bytes encode df q ts).1 ∧
    (ui_download encode df q ts).data =
      (df_to_excel_bytes encode df q ts).2 :=
  ⟨rfl, rfl, rfl⟩

end CR2

namespace CR2

/-- C3: citation-link lookup follows the ordered fallback chain —
toolbar container first (URL marker `cites=`, then the two localized
cited-by phrases), then the enclosing result block with the same two
stages — returning on first success; when every stage fails the citation
count is 0 and no error escapes (the lookup is a total function). -/
theorem C3_citation_link_fallback :
    (∀ card : Card, findCiteLink card = locateCitationLinkSpec card) ∧
    (∀ (h : Option Heading) (ls : List Link) (rb : Option (List Link))
        (l : Link), findCitesLink ls = some l →
      findCiteLink ⟨h, some ls, rb⟩ = some l) ∧
    (∀ (h : Option Heading) (ls : List Link) (rb : Option (List Link))
        (l : Link), findCitesLink ls = none → findPhraseLink ls = some l →
      findCiteLink ⟨h, some ls, rb⟩ = some l) ∧
    (∀ (h : Option Heading) (ls bs : List Link),
      findCitesLink ls = none → findPhraseLink ls = none →
      findCiteLink ⟨h, some ls, some bs⟩ =
        ((findCitesLink bs).orElse fun _ => findPhraseLink bs)) ∧
    (∀ card : Card, findCiteLink card = none → citationsOf card = 0) := by
  refine ⟨?_, ?_, ?_, ?_, ?_⟩
  · rintro ⟨h, fc, rb⟩
    cases fc with
    | none =>
      cases rb with
      | none => rfl
      | some bs =>
        cases hcb : findCitesLink bs with
        | none => simp [findCiteLink, locateCitationLinkSpec, Option.orElse, hcb]
        | some l => simp [findCiteLink, locateCitationLinkSpec, Option.orElse, hcb]
    | some ls =>
      cases hc : findCitesLink ls with
      | some l => simp [findCiteLink, locateCitationLinkSpec, Option.orElse, hc]
      | none =>
        cases hp : findPhraseLink ls with
        | some l => simp [findCiteLink, locateCitationLinkSpec, Option.orElse, hc, hp]
        | none =>
          cases rb with
          | none => simp [findCiteLink, locateCitationLinkSpec, Option.orElse, hc, hp]
          | some bs =>
            cases hcb : findCitesLink bs with
            | none =>
              simp [findCiteLink, locateCitationLinkSpec, Option.orElse, hc, hp, hcb]
            | some l =>
              simp [findCiteLink, locateCitationLinkSpec, Option.orElse, hc, hp, hcb]
  · intro h ls rb l hc
    simp [findCiteLink, hc]
  · intro h ls rb l hc hp
    simp [findCiteLink, hc, hp]
  · intro h ls bs hc hp
    cases hcb : findCitesLink bs with
    | none => simp [findCiteLink, Option.orElse, hc, hp, hcb]
    | some l => simp [findCiteLink, Option.orElse, hc, hp, hcb]
  · intro card hnone
    simp [citationsOf, hnone]

/-- Witness for C3: a card with an empty toolbar and empty result block
yields no link and citation count 0; a card whose toolbar holds a
`cites=` link yields that link. -/
theorem C3_citation_link_fallback_witness :
    citationsOf ⟨some ⟨some "T", "T"⟩, some [], some []⟩ = 0 ∧
    findCiteLink ⟨none, some [⟨"u?cites=3", "Cited by 3"⟩], none⟩ =
      some ⟨"u?cites=3", "Cited by 3"⟩ :=
  ⟨C3_citation_link_fallback.2.2.2.2 ⟨some ⟨some "T", "T"⟩, some [], some []⟩
      (by decide),
    C3_citation_link_fallback.2.1 none [⟨"u?cites=3", "Cited by 3"⟩] none
      ⟨"u?cites=3", "Cited by 3"⟩ (by decide)⟩

theorem collectAux_map_rank (p : Nat) (cards : List Card) :
    ∀ r, (collectAux p cards r).map Record.rank =
      List.range' (r + 1) (keptCards cards).length := by
  induction cards with
  | nil => intro r; simp [collectAux, keptCards]
  | cons c cs ih =>
    intro r
    by_cases hc : titleOf c ≠ ""
    · have h1 : collectAux p (c :: cs) r =
          ⟨p, r + 1, titleOf c, citationsOf c⟩ :: collectAux p cs (r + 1) := by
        simp [collectAux, hc]
      have h2 : keptCards (c :: cs) = c :: keptCards cs := by
        simp [keptCards, List.filter_cons, hc]
      rw [h1, List.map_cons, ih (r + 1), h2, List.length_cons, List.range'_succ]
    · push_neg at hc
      have h1 : collectAux p (c :: cs) r = collectAux p cs r := by
        simp [collectAux, hc]
      have h2 : keptCards (c :: cs) = keptCards cs := by
        simp [keptCards, List.filter_cons, hc]
      rw [h1, h2, ih r]

theorem collectAux_map_title (p : Nat) (cards : List Card) :
    ∀ r, (collectAux p cards r).map Record.title =
      (keptCards cards).map titleOf := by
  induction cards with
  | nil => intro r; simp [collectAux, keptCards]
  | cons c cs ih =>
    intro r
    by_cases hc : titleOf c ≠ ""
    · have h1 : collectAux p (c :: cs) r =
          ⟨p, r + 1, titleOf c, citationsOf c⟩ :: collectAux p cs (r + 1) := by
        simp [collectAux, hc]
      have h2 : keptCards (c :: cs) = c :: keptCards cs := by
        simp [keptCards, List.filter_cons, hc]
      rw [h1, List.map_cons, ih (r + 1), h2, List.map_cons]
    · push_neg at hc
      have h1 : collectAux p (c :: cs) r = collectAux p cs r := by
        simp [collectAux, hc]
      have h2 : keptCards (c :: cs) = keptCards cs := by
        simp [keptCards, List.filter_cons, hc]
      rw [h1, h2, ih r]

theorem collectAux_map_page (p : Nat) (cards : List Card) :
    ∀ r, (collectAux p cards r).map Record.page =
      List.replicate (keptCards cards).length p := by
  induction cards with
  | nil => intro r; simp [collectAux, keptCards]
  | cons c cs ih =>
    intro r
    by_cases hc : titleOf c ≠ ""
    · have h1 : collectAux p (c :: cs) r =
          ⟨p, r + 1, titleOf c, citationsOf c⟩ :: collectAux p cs (r + 1) := by
        simp [collectAux, hc]
      have h2 : keptCards (c :: cs) = c :: keptCards cs := by
        simp [keptCards, List.filter_cons, hc]
      rw [h1, List.map_cons, ih (r + 1), h2, List.length_cons, List.replicate_succ]
    · push_neg at hc
      have h1 : collectAux p (c :: cs) r = collectAux p cs r := by
        simp [collectAux, hc]
      have h2 : keptCards (c :: cs) = keptCards cs := by
        simp [keptCards, List.filter_cons, hc]
      rw [h1, h2, ih r]

/-- C4: per page, the emitted ranks form the dense sequence 1..k where k
is the number of cards whose extracted title is non-empty; skipped cards
consume no rank; emission order is document order (the emitted titles are
the kept cards' titles in order); every record carries the page index. -/
theorem C4_dense_ranks (cards : List Card) (p : Nat) :
    (collect_page_items cards p).map Record.rank =
      List.range' 1 (keptCards cards).length ∧
    (collect_page_items cards p).map Record.title =
      (keptCards cards).map titleOf ∧
    (collect_page_items cards p).map Record.page =
      List.replicate (keptCards cards).length p :=
  ⟨collectAux_map_rank p cards 0, collectAux_map_title p cards 0,
    collectAux_map_page p cards 0⟩

end CR2

namespace CR2

theorem collectPages_suspends (pages : List PageRender) :
    ∀ (idx k : Nat) (hk : k < pages.length),
      wait_if_captcha (pages.get ⟨k, hk⟩).source = true →
      (∀ j (hj : j < pages.length), j < k →
        wait_if_captcha (pages.get ⟨j, hj⟩).source = false) →
      (collectPages pages idx).2 = some (idx + k) := by
  induction pages with
  | nil => intro idx k hk; exact absurd hk (Nat.not_lt_zero k)
  | cons pr rest ih =>
    intro idx k hk hdet hbefore
    cases k with
    | zero =>
      have h0 : wait_if_captcha pr.source = true := hdet
      simp [collectPages, h0]
    | succ k' =>
      have h0 : wait_if_captcha pr.source = false :=
        hbefore 0 (Nat.succ_pos rest.length) (Nat.succ_pos k')
      have hk' : k' < rest.length := Nat.lt_of_succ_lt_succ hk
      have hdet' : wait_if_captcha (rest.get ⟨k', hk'⟩).source = true := hdet
      have hbefore' : ∀ j (hj : j < rest.length), j < k' →
          wait_if_captcha (rest.get ⟨j, hj⟩).source = false :=
        fun j hj hjk =>
          hbefore (j + 1) (Nat.succ_lt_succ hj) (Nat.succ_lt_succ hjk)
      have := ih (idx + 1) k' hk' hdet' hbefore'
      simp [collectPages, h0, this]
      omega

/-- C5: whenever the rendered content of a visited page matches a phrase of
the fixed challenge-signature set (case-insensitively, via the lowercased
page source) and no earlier page did, the run halts in the suspended state
at that page — before any record of that page is extracted or returned —
and detection fires for every hint phrase found in the lowercased source. -/
theorem C5_challenge_suspends (pages : List PageRender) (k : Nat)
    (hk : k < pages.length)
    (hdet : wait_if_captcha (pages.get ⟨k, hk⟩).source = true)
    (hbefore : ∀ j (hj : j < pages.length), j < k →
      wait_if_captcha (pages.get ⟨j, hj⟩).source = false) :
    run_scrape pages = .suspended (k + 1) ∧
    (∀ s hint : String, hint ∈ captchaHints →
      substr hint (pyLower s) = true → wait_if_captcha s = true) := by
  constructor
  · have h := collectPages_suspends pages 1 k hk hdet hbefore
    unfold run_scrape
    rw [h]
    simp [Nat.add_comm]
  · intro s hint hmem hsub
    unfold wait_if_captcha
    rw [List.any_eq_true]
    exact ⟨hint, hmem, hsub⟩

/-- Witness for C5: with a clean first page and "CAPTCHA" (upper case) in
the second page's content, the run suspends at page 2. -/
theorem C5_challenge_suspends_witness :
    wait_if_captcha "Please verify: CAPTCHA" = true ∧
    run_scrape
      [⟨"all good results here", []⟩, ⟨"Please verify: CAPTCHA", []⟩] =
      .suspended 2 :=
  by
  have hb : ∀ j (hj : j <
      ([⟨"all good results here", []⟩,
        ⟨"Please verify: CAPTCHA", []⟩] : List PageRender).length), j < 1 →
      wait_if_captcha
        (([⟨"all good results here", []⟩,
          ⟨"Please verify: CAPTCHA", []⟩] : List PageRender).get
          ⟨j, hj⟩).source = false := by
    intro j hj hjk
    cases j with
    | zero =>
      show wait_if_captcha "all good results here" = false
      decide
    | succ n => exact absurd hjk (by omega)
  exact ⟨by decide,
    (C5_challenge_suspends
      [⟨"all good results here", []⟩, ⟨"Please verify: CAPTCHA", []⟩] 1
      (by decide) (by decide) hb).1⟩

theorem collect_page_items_eq_nil (cards : List Card) (p : Nat)
    (h : ∀ c ∈ cards, titleOf c = "") : collect_page_items cards p = [] := by
  have : ∀ r, collectAux p cards r = [] := by
    induction cards with
    | nil => intro r; simp [collectAux]
    | cons c cs ih =>
      intro r
      have hc : titleOf c = "" := h c (List.mem_cons_self c cs)
      simp only [collectAux, hc]
      simp
      exact ih (fun c hc => h c (List.mem_cons_of_mem _ hc)) r
  exact this 0

theorem collectPages_all_empty (pages : List PageRender) :
    ∀ idx,
      (∀ pr ∈ pages, wait_if_captcha pr.source = false) →
      (∀ pr ∈ pages, ∀ c ∈ pr.cards, titleOf c = "") →
      collectPages pages idx = ([], none) := by
  induction pages with
  | nil => intro idx _ _; rfl
  | cons pr rest ih =>
    intro idx hnc hempty
    have h0 : wait_if_captcha pr.source = false :=
      hnc pr (List.mem_cons_self pr rest)
    have h1 : collect_page_items pr.cards idx = [] :=
      collect_page_items_eq_nil pr.cards idx
        (hempty pr (List.mem_cons_self pr rest))
    have h2 : collectPages rest (idx + 1) = ([], none) :=
      ih (idx + 1) (fun q hq => hnc q (List.mem_cons_of_mem _ hq))
        (fun q hq => hempty q (List.mem_cons_of_mem _ hq))
    simp [collectPages, h0, h1, h2]

/-- C6: a run in which every visited page yields zero valid records (and no
challenge fires) produces the empty result set through the normal `ok`
outcome — the empty aggregation input is not an error. -/
theorem C6_empty_result_is_ok (pages : List PageRender)
    (hnc : ∀ pr ∈ pages, wait_if_captcha pr.source = false)
    (hempty : ∀ pr ∈ pages, ∀ c ∈ pr.cards, titleOf c = "") :
    run_scrape pages = .ok [] := by
  have h := collectPages_all_empty pages 1 hnc hempty
  unfold run_scrape
  rw [h]
  rfl

/-- Witness for C6: one clean page whose single card has no heading. -/
theorem C6_empty_result_is_ok_witness :
    run_scrape [⟨"plain results page", [⟨none, none, none⟩]⟩] = .ok [] :=
  C6_empty_result_is_ok [⟨"plain results page", [⟨none, none, none⟩]⟩]
    (by decide) (by decide)

/-- C7: on every exit path of the run — the body completing normally or
raising — the `finally` block issues exactly one `driver.quit()` call, and
a failure of the quit call is swallowed: the run's outcome is the body's
outcome, whether or not the quit raises. -/
theorem C7_session_released_once (body : Except Unit (List Record) × List Event)
    (quitFails : Bool) (hbody : body.2.count Event.quitCall = 0) :
    (run_scrape_session body quitFails).2.count Event.quitCall = 1 ∧
    (run_scrape_session body quitFails).1 = body.1 := by
  unfold run_scrape_session tryFinallyRun swallowErrors quitOp
  simp [List.count_append, hbody, List.count_cons]

/-- Witness for C7: a body that raises after one page load still produces
exactly one quit call, and the raising outcome is preserved even when the
quit call itself fails. -/
theorem C7_session_released_once_witness :
    (run_scrape_session
        ((Except.error () : Except Unit (List Record)), [Event.pageLoad 1])
        true).2.count Event.quitCall = 1 ∧
    (run_scrape_session
        ((Except.error () : Except Unit (List Record)), [Event.pageLoad 1])
        true).1 = Except.error () :=
  C7_session_released_once (Except.error (), [Event.pageLoad 1]) true (by decide)

/-- Counterexample to C9 as stated: the exported name is prefixed
`scholar_results_`, not `results_`. -/
theorem C9_counterexample :
    mk_file_name "a" "20251012_120000" ≠
      claimedFileName "a" "20251012_120000" := by
  decide

/-- C9 (amended): the exported file name follows the convention
`scholar_results_<sanitized-query>_<timestamp>.xlsx`, where sanitization
replaces every filesystem-unsafe character of the query with an underscore
(so the sanitized query is free of unsafe characters and keeps its length). -/
theorem C9_export_file_name (q ts : String) :
    mk_file_name q ts =
      "scholar_results_" ++ sanitize q ++ "_" ++ ts ++ ".xlsx" ∧
    (sanitize q).length = q.length ∧
    (∀ c ∈ (sanitize q).data, c ∉ unsafeChars) := by
  refine ⟨rfl, ?_, ?_⟩
  · rw [← String.length_data, ← String.length_data]
    exact List.length_map q.data _
  · intro c hc
    simp only [sanitize, List.mem_map] at hc
    obtain ⟨a, ha, rfl⟩ := hc
    by_cases h : a ∈ unsafeChars
    · simp only [if_pos h]
      decide
    · simp only [if_neg h]
      exact h

/-- Witness for C9: the slash in the query is replaced by an underscore in
the exported name, and a safe character stays out of the unsafe set. -/
theorem C9_export_file_name_witness :
    mk_file_name "a/b" "20251012_120000" =
      "scholar_results_a_b_20251012_120000.xlsx" ∧
    'a' ∉ unsafeChars :=
  ⟨((C9_export_file_name "a/b" "20251012_120000").1).trans (by decide),
    (C9_export_file_name "a/b" "20251012_120000").2.2 'a' (by decide)⟩

end CR2

namespace CR2

/-- Witness for C2: a digit-free input parses to 0, and on "a1b2" the
parser returns the value of the first digit run only. -/
theorem C2_citation_parsing_witness :
    parse_citations_text "no digits" = 0 ∧
    parse_citations_text "a1b2" = digitsVal ['1'] :=
  ⟨C2_citation_parsing.2.2.2.2.2.1 "no digits" (by decide),
    C2_citation_parsing.2.2.2.2.2.2 "a1b2" ['a'] ['1'] ['b', '2']
      (by decide) (by decide) (by decide) (by decide)
      (by intro c hc; cases hc; decide)⟩

end CR2
